import Mathlib

/-!
Shallow embedding of the diet-tracking core of `my-app`
(`src/unnamed/part_000`, a React component, and `src/api/chat.ts`, the
HTTP proxy).  JavaScript numbers are modelled as exact rationals (`ℚ`);
every numeric value reachable in the checked claims is a finite decimal,
so no floating-point overflow/NaN behaviour is in scope.  React state
setters are modelled by returning the new value of the state.
-/

namespace MyApp

/-- Meal slots, source `MealTime = "朝" | "昼" | "夜"` (part_000 line 6).
The constructor names `morning`, `lunch`, `dinner` follow the key names
of the source's `CalorieSplit` record (lines 23-27). -/
inductive MealTime where
  | morning
  | lunch
  | dinner
deriving DecidableEq, Repr

/-- One extracted ingredient, source `NutrientItem` (part_000 lines 8-16).
Field names are romanized: `name` = 材料名, `quantity` = 数量,
`weight` = 重量, `calories` = カロリー, `protein` = たんぱく質,
`fat` = 脂質, `carbohydrate` = 炭水化物.  Optional fields are
unit-suffixed strings, e.g. "120kcal", "10g". -/
structure NutrientItem where
  name : String
  quantity : Option String := none
  weight : Option String := none
  calories : Option String := none
  protein : Option String := none
  fat : Option String := none
  carbohydrate : Option String := none
deriving DecidableEq, Repr

/-- Percentage split of the daily calorie goal, source `CalorieSplit`
(part_000 lines 23-27). -/
structure CalorieSplit where
  morning : ℚ
  lunch : ℚ
  dinner : ℚ
deriving DecidableEq, Repr

/-- Aggregated totals, source `Totals` (part_000 lines 29-34). -/
structure Totals where
  kcal : ℚ
  protein : ℚ
  fat : ℚ
  carbs : ℚ
deriving DecidableEq, Repr

/-- One day's record, source `DayRecord = Record<MealTime, NutrientItem[][]>`
(part_000 line 44): per slot, an ordered list of meal entries, each an
ordered list of items. -/
structure DayRecord where
  morning : List (List NutrientItem)
  lunch : List (List NutrientItem)
  dinner : List (List NutrientItem)
deriving DecidableEq, Repr

/-- The ledger, source `DailyRecords = Record<string, DayRecord>`
(part_000 line 47): a date key ("yyyy-mm-dd") is either absent (`none`)
or mapped to a `DayRecord`. -/
abbrev DailyRecords := String → Option DayRecord

/-- Characters kept by `v.replace(/[^\d.\-]+/g, "")` (part_000 line 54):
ASCII digits, the dot, and the minus sign. -/
def keepNumChar (c : Char) : Bool :=
  c.isDigit || c == '.' || c == '-'

/-- Value of a list of ASCII digit characters read in base 10. -/
def digitsToNat (ds : List Char) : ℕ :=
  ds.foldl (fun a c => 10 * a + (c.toNat - 48)) 0

/-- Sign of the number token `parseFloat` reads: a leading '-'. -/
def parseNeg (cs : List Char) : Bool :=
  cs.head? == some '-'

/-- The characters after the optional leading sign. -/
def parseBody (cs : List Char) : List Char :=
  if cs.head? == some '-' then cs.tail else cs

/-- Integer-part digits of the number token. -/
def parseIntDigits (cs : List Char) : List Char :=
  (parseBody cs).takeWhile Char.isDigit

/-- Fraction-part digits of the number token: the digits right after a
dot that follows the integer part. -/
def parseFracDigits (cs : List Char) : List Char :=
  if ((parseBody cs).dropWhile Char.isDigit).head? == some '.' then
    ((parseBody cs).dropWhile Char.isDigit).tail.takeWhile Char.isDigit
  else []

/-- ECMAScript `parseFloat` restricted to the alphabet that survives the
strip on part_000 line 54 (digits, '.', '-'): the longest prefix of the
form sign? (digits ('.' digits*)? | '.' digits+) is read; `none` models
the NaN result when that prefix has no digit at all.  No exponent,
no "Infinity" literal, and no '+' sign can occur over this alphabet. -/
def jsParseFloat (cs : List Char) : Option ℚ :=
  if (parseIntDigits cs).isEmpty && (parseFracDigits cs).isEmpty then none
  else
    let mag : ℚ := (digitsToNat (parseIntDigits cs) : ℚ) +
      (digitsToNat (parseFracDigits cs) : ℚ) / (10 : ℚ) ^ (parseFracDigits cs).length
    some (if parseNeg cs then -mag else mag)

/-- Source `numFromUnitString` (part_000 lines 52-56):
`if (!v) return 0; const n = parseFloat(v.replace(/[^\d.\-]+/g, ""));
return isNaN(n) ? 0 : n;`.  An absent value, the empty string (falsy in
JS), and a NaN parse all give 0. -/
def numFromUnitString (v : Option String) : ℚ :=
  match v with
  | none => 0
  | some s =>
    if s = "" then 0
    else
      match jsParseFloat (s.data.filter keepNumChar) with
      | none => 0
      | some q => q

/-- Rounding at the tenths place, half away from zero: the value of
`Number(x.toFixed(1))` for a finite `x` (ECMAScript `toFixed` separates
the sign first, then picks the closest multiple of 1/10, ties upward).
This models every `Number(toFixedSafe(x, 1))` in part_000
(lines 115-118, 303-306). -/
def roundTo1 (q : ℚ) : ℚ :=
  (if q < 0 then -1 else 1) * ((⌊10 * |q| + 1 / 2⌋ : ℤ) : ℚ) / 10

/-- Source `toFixedSafe` (part_000 line 58) at its only used precision
`d = 1`: the string `n.toFixed(1)`.  A finite rational is always
`Number.isFinite`, so the "0.0" fallback never fires in this model. -/
def toFixedSafe (q : ℚ) : String :=
  (if q < 0 then "-" else "") ++
    Nat.repr ((⌊10 * |q| + 1 / 2⌋).toNat / 10) ++ "." ++
    Nat.repr ((⌊10 * |q| + 1 / 2⌋).toNat % 10)

/-- Unrounded accumulation of the four parsed magnitudes over a list of
items, as done by the `forEach` loops of part_000 (lines 103-112 and
270-276): each field goes through `numFromUnitString` and is summed. -/
def rawTotals (items : List NutrientItem) : Totals :=
  ⟨(items.map (fun i => numFromUnitString i.calories)).sum,
   (items.map (fun i => numFromUnitString i.protein)).sum,
   (items.map (fun i => numFromUnitString i.fat)).sum,
   (items.map (fun i => numFromUnitString i.carbohydrate)).sum⟩

/-- Rounds each accumulator with `Number(toFixedSafe(·, 1))`
(part_000 lines 114-119 and 303-306). -/
def roundTotals (t : Totals) : Totals :=
  ⟨roundTo1 t.kcal, roundTo1 t.protein, roundTo1 t.fat, roundTo1 t.carbs⟩

/-- The record created for a fresh date: `{ "朝": [], "昼": [], "夜": [] }`
(part_000 line 313). -/
def emptyDay : DayRecord :=
  ⟨[], [], []⟩

/-- Access to one slot's entry list of a `DayRecord`. -/
def slotEntries (d : DayRecord) : MealTime → List (List NutrientItem)
  | .morning => d.morning
  | .lunch => d.lunch
  | .dinner => d.dinner

/-- The push `updated[dateKey][mealTime].push(scaledIngredients)`
(part_000 line 315) on one day's record: the entry goes to the end of
the chosen slot's list, the other two slots are untouched. -/
def pushEntry (d : DayRecord) (t : MealTime) (entry : List NutrientItem) : DayRecord :=
  match t with
  | .morning => { d with morning := d.morning ++ [entry] }
  | .lunch => { d with lunch := d.lunch ++ [entry] }
  | .dinner => { d with dinner := d.dinner ++ [entry] }

/-- The ledger update of part_000 lines 310-317: copy the previous map,
create `{朝:[],昼:[],夜:[]}` if the date key is absent, then push the
entry onto the chosen slot. -/
def appendRecord (records : DailyRecords) (dateKey : String) (t : MealTime)
    (entry : List NutrientItem) : DailyRecords :=
  fun d =>
    if d = dateKey then some (pushEntry ((records dateKey).getD emptyDay) t entry)
    else records d

/-- All items of a day in iteration order `Object.values` = 朝, 昼, 夜
(insertion order of part_000 line 313), each slot's meals flattened. -/
def flattenDay (d : DayRecord) : List NutrientItem :=
  ((d.morning ++ d.lunch ++ d.dinner).flatten)

/-- Source `getTotalForDate` (part_000 lines 94-120): an absent date
yields all-zero totals; otherwise every slot's every meal's every item
is accumulated through `numFromUnitString` and each accumulator is
rounded by `Number(toFixedSafe(·, 1))`. -/
def getTotalForDate (records : DailyRecords) (date : String) : Totals :=
  match records date with
  | none => ⟨0, 0, 0, 0⟩
  | some r => roundTotals (rawTotals (flattenDay r))

/-- The ledger before any append: every date key absent (initial state
`useState<DailyRecords>({})`, part_000 line 89). -/
def emptyLedger : DailyRecords :=
  fun _ => none

/-- Iterated append of the same entry to the same (date, slot). -/
def appendN (n : ℕ) (records : DailyRecords) (dateKey : String) (t : MealTime)
    (entry : List NutrientItem) : DailyRecords :=
  match n with
  | 0 => records
  | Nat.succ m => appendRecord (appendN m records dateKey t entry) dateKey t entry

/-- Source `mealRatiosCalc` (part_000 lines 278-282): the chosen slot's
percentage divided by 100. -/
def mealShare (split : CalorieSplit) : MealTime → ℚ
  | .morning => split.morning / 100
  | .lunch => split.lunch / 100
  | .dinner => split.dinner / 100

/-- The slot's calorie budget `mealRatiosCalc[mealTime] * goalCalories`,
the numerator of `scaleFactor` on part_000 line 285 (the spec's Budget
Calculator). -/
def slotBudget (goalCalories : ℚ) (split : CalorieSplit) (t : MealTime) : ℚ :=
  mealShare split t * goalCalories

/-- Source `const scaleBase = kcalSum || 1` (part_000 line 284): the raw
kcal sum when it is nonzero (0 is the only falsy rational), else 1. -/
def scaleBaseOf (arr : List NutrientItem) : ℚ :=
  if (rawTotals arr).kcal = 0 then 1 else (rawTotals arr).kcal

/-- Source `scaleFactor` (part_000 line 285). -/
def scaleFactorOf (arr : List NutrientItem) (goalCalories : ℚ) (split : CalorieSplit)
    (t : MealTime) : ℚ :=
  slotBudget goalCalories split t / scaleBaseOf arr

/-- Per-item scaling (part_000 lines 287-300): spread the item, then
overwrite the four magnitude fields with `toFixedSafe(value * factor)`
plus the unit suffix.  `name`, `quantity`, `weight` are carried over by
the spread. -/
def scaleItem (factor : ℚ) (item : NutrientItem) : NutrientItem :=
  { item with
    calories := some (toFixedSafe (numFromUnitString item.calories * factor) ++ "kcal"),
    protein := some (toFixedSafe (numFromUnitString item.protein * factor) ++ "g"),
    fat := some (toFixedSafe (numFromUnitString item.fat * factor) ++ "g"),
    carbohydrate := some (toFixedSafe (numFromUnitString item.carbohydrate * factor) ++ "g") }

/-- The array branch of `callGPT` (part_000 lines 266-306): raw sums,
scale factor, scaled item list, and the four displayed totals
`Number(toFixedSafe(sum * scaleFactor, 1))` - the totals scale the raw
sums, they are not re-aggregated from the scaled strings. -/
def scaleMealArr (arr : List NutrientItem) (goalCalories : ℚ) (split : CalorieSplit)
    (t : MealTime) : List NutrientItem × Totals :=
  let f := scaleFactorOf arr goalCalories split t
  (arr.map (scaleItem f),
   roundTotals ⟨(rawTotals arr).kcal * f, (rawTotals arr).protein * f,
                (rawTotals arr).fat * f, (rawTotals arr).carbs * f⟩)

/-- Shape of `JSON.parse(message)` as discriminated by part_000
lines 266, 318, 323, 327: a JSON array of items; an object whose
`ingredients` member is an array (any such object, tested before the
plain-object case); any other object, read as a single item; or any
other JSON value (null, number, string, boolean), which only alerts. -/
inductive ParsedMessage where
  | jsonArray (items : List NutrientItem)
  | objectWithIngredients (items : List NutrientItem)
  | objectPlain (obj : NutrientItem)
  | otherJson
deriving DecidableEq, Repr

/-- The displayed extraction state: `ingredients`, `totalCalories`,
`totalProtein`, `totalFat`, `totalCarbs` (part_000 lines 75-79). -/
structure UIState where
  ingredients : List NutrientItem
  totalCalories : ℚ
  totalProtein : ℚ
  totalFat : ℚ
  totalCarbs : ℚ
deriving DecidableEq, Repr

/-- The state update performed by `callGPT` after a successful JSON
parse (part_000 lines 266-329), as a function of the previous UI state
and ledger.  Only the array branch scales and appends; the
`{ingredients: [...]}` branch shows the array and sums its calories
unrounded; the plain-object branch shows a one-item list and its parsed
calories; both leave every other state field and the ledger unchanged;
any other JSON value changes nothing (alert only). -/
def callGPTUpdate (parsed : ParsedMessage) (goalCalories : ℚ) (split : CalorieSplit)
    (t : MealTime) (dateKey : String) (st : UIState) (records : DailyRecords) :
    UIState × DailyRecords :=
  match parsed with
  | .jsonArray arr =>
    let scaled := (scaleMealArr arr goalCalories split t).1
    let tot := (scaleMealArr arr goalCalories split t).2
    (⟨scaled, tot.kcal, tot.protein, tot.fat, tot.carbs⟩,
     appendRecord records dateKey t scaled)
  | .objectWithIngredients items =>
    ({ st with ingredients := items,
               totalCalories := (items.map (fun i => numFromUnitString i.calories)).sum },
     records)
  | .objectPlain obj =>
    ({ st with ingredients := [obj], totalCalories := numFromUnitString obj.calories },
     records)
  | .otherJson => (st, records)

/-- Status code returned by the proxy `handler` (src/api/chat.ts):
OPTIONS preflight is answered 200 before the method check; any other
non-POST gets 405; a falsy `prompt` (absent body, absent field, or empty
string) gets 400; a falsy `OPENAI_API_KEY` (unset or empty) gets 500;
otherwise the upstream status is forwarded. -/
def chatHandler (method : String) (prompt : Option String) (apiKey : Option String)
    (upstreamStatus : ℕ) : ℕ :=
  if method = "OPTIONS" then 200
  else if method ≠ "POST" then 405
  else if prompt.getD "" = "" then 400
  else if apiKey.getD "" = "" then 500
  else upstreamStatus

/-- Modelled from the claim's wording, for comparison with the code's
`numFromUnitString`: the first contiguous run of digits, extended
through at most one decimal point and a following digit run, with a
minus sign standing immediately before it; everything else discarded. -/
def firstRunToken : List Char → List Char
  | [] => []
  | c :: rest =>
    if c.isDigit then
      let ds := List.takeWhile Char.isDigit (c :: rest)
      match List.dropWhile Char.isDigit (c :: rest) with
      | '.' :: r3 => ds ++ '.' :: List.takeWhile Char.isDigit r3
      | _ => ds
    else if c = '-' then
      match rest with
      | d :: _ =>
        if d.isDigit || d = '.' then '-' :: firstRunToken rest else firstRunToken rest
      | [] => []
    else firstRunToken rest

/-- The unit parser as claim C3 describes it: parse only the first
number token of the input. -/
def parseMagnitudeSpec (v : Option String) : ℚ :=
  match v with
  | none => 0
  | some s => (jsParseFloat (firstRunToken s.data)).getD 0

/-- A day record whose only populated slot is `t`, used to describe the
ledger after repeated appends to one slot. -/
def slotOnly (t : MealTime) (l : List (List NutrientItem)) : DayRecord :=
  match t with
  | .morning => ⟨l, [], []⟩
  | .lunch => ⟨[], l, []⟩
  | .dinner => ⟨[], [], l⟩

/-- Rounding the rational 0 gives 0. -/
theorem roundTo1_zero : roundTo1 0 = 0 := by
  with_unfolding_all decide

/-- Distance between a rational and its floor-based tenth is at most one
twentieth. -/
theorem abs_floorHalf_sub_le (q : ℚ) :
    |((⌊10 * q + 1 / 2⌋ : ℤ) : ℚ) / 10 - q| ≤ 1 / 20 := by
  have h1 : ((⌊10 * q + 1 / 2⌋ : ℤ) : ℚ) ≤ 10 * q + 1 / 2 := Int.floor_le _
  have h2 : (10 : ℚ) * q + 1 / 2 < ((⌊10 * q + 1 / 2⌋ : ℤ) : ℚ) + 1 := Int.lt_floor_add_one _
  rw [abs_le]
  constructor <;> linarith

/-- Rounding half away from zero at the tenths moves a value by at most
one twentieth. -/
theorem abs_roundTo1_sub_le (q : ℚ) : |roundTo1 q - q| ≤ 1 / 20 := by
  unfold roundTo1
  rcases lt_or_le q 0 with hq | hq
  · rw [if_pos hq, abs_of_neg hq]
    have h := abs_floorHalf_sub_le (-q)
    have e : (-1 : ℚ) * ((⌊10 * -q + 1 / 2⌋ : ℤ) : ℚ) / 10 - q
        = -(((⌊10 * -q + 1 / 2⌋ : ℤ) : ℚ) / 10 - -q) := by ring
    rw [e, abs_neg]
    exact h
  · rw [if_neg (not_lt.2 hq), abs_of_nonneg hq]
    have h := abs_floorHalf_sub_le q
    have e : (1 : ℚ) * ((⌊10 * q + 1 / 2⌋ : ℤ) : ℚ) / 10 - q
        = ((⌊10 * q + 1 / 2⌋ : ℤ) : ℚ) / 10 - q := by ring
    rw [e]
    exact h

/-- Integer multiples of one tenth are fixed points of the rounding. -/
theorem roundTo1_tenth (m : ℤ) : roundTo1 ((m : ℚ) / 10) = (m : ℚ) / 10 := by
  unfold roundTo1
  rcases le_or_lt 0 m with hm | hm
  · have hq : (0 : ℚ) ≤ (m : ℚ) / 10 := by
      apply div_nonneg _ (by norm_num)
      exact_mod_cast hm
    rw [if_neg (not_lt.2 hq), abs_of_nonneg hq]
    have e : (10 : ℚ) * ((m : ℚ) / 10) + 1 / 2 = (m : ℚ) + 1 / 2 := by ring
    rw [e, add_comm, Int.floor_add_int]
    have h0 : ⌊(1 : ℚ) / 2⌋ = 0 := by norm_num
    rw [h0]
    push_cast
    ring
  · have hq : (m : ℚ) / 10 < 0 := by
      apply div_neg_of_neg_of_pos _ (by norm_num)
      exact_mod_cast hm
    rw [if_pos hq, abs_of_neg hq]
    have e : (10 : ℚ) * -((m : ℚ) / 10) + 1 / 2 = ((-m : ℤ) : ℚ) + 1 / 2 := by
      push_cast
      ring
    rw [e, add_comm, Int.floor_add_int]
    have h0 : ⌊(1 : ℚ) / 2⌋ = 0 := by norm_num
    rw [h0]
    push_cast
    ring

/-- Scaling by a natural number keeps a value a fixed point of the
rounding when it is an integer multiple of one tenth. -/
theorem roundTo1_nat_mul_tenth (n : ℕ) (a : ℤ) :
    roundTo1 ((n : ℚ) * ((a : ℚ) / 10)) = (n : ℚ) * ((a : ℚ) / 10) := by
  have e : (n : ℚ) * ((a : ℚ) / 10) = (((n : ℤ) * a : ℤ) : ℚ) / 10 := by
    push_cast
    ring
  rw [e, roundTo1_tenth]

/-- A digit-free list has an empty digit take. -/
theorem takeWhile_isDigit_eq_nil {cs : List Char} (h : ∀ c ∈ cs, c.isDigit = false) :
    cs.takeWhile Char.isDigit = [] := by
  cases cs with
  | nil => rfl
  | cons c t => simp [List.takeWhile_cons, h c (List.mem_cons_self c t)]

/-- Dropping digits from a digit-free list drops nothing. -/
theorem dropWhile_isDigit_eq_self {cs : List Char} (h : ∀ c ∈ cs, c.isDigit = false) :
    cs.dropWhile Char.isDigit = cs := by
  cases cs with
  | nil => rfl
  | cons c t => simp [List.dropWhile_cons, h c (List.mem_cons_self c t)]

/-- Every character of `parseBody cs` comes from `cs`. -/
theorem parseBody_subset {cs : List Char} {x : Char} (hx : x ∈ parseBody cs) : x ∈ cs := by
  unfold parseBody at hx
  by_cases hh : (cs.head? == some '-') = true
  · rw [if_pos hh] at hx
    exact List.mem_of_mem_tail hx
  · rw [if_neg hh] at hx
    exact hx

/-- With no digit anywhere in the input, `parseFloat` yields NaN. -/
theorem jsParseFloat_of_no_digit {cs : List Char} (h : ∀ c ∈ cs, c.isDigit = false) :
    jsParseFloat cs = none := by
  have hbody : ∀ c ∈ parseBody cs, c.isDigit = false := fun c hc => h c (parseBody_subset hc)
  have hint : parseIntDigits cs = [] := takeWhile_isDigit_eq_nil hbody
  have hfrac : parseFracDigits cs = [] := by
    unfold parseFracDigits
    rw [dropWhile_isDigit_eq_self hbody]
    by_cases hh : ((parseBody cs).head? == some '.') = true
    · rw [if_pos hh]
      apply takeWhile_isDigit_eq_nil
      intro c hc
      exact hbody c (List.mem_of_mem_tail hc)
    · rw [if_neg hh]
  unfold jsParseFloat
  rw [hint, hfrac]
  rfl

/-- Pushing onto the populated slot of a one-slot day extends that slot. -/
theorem pushEntry_slotOnly (t : MealTime) (l : List (List NutrientItem))
    (entry : List NutrientItem) :
    pushEntry (slotOnly t l) t entry = slotOnly t (l ++ [entry]) := by
  cases t <;> rfl

/-- Pushing onto the fresh day record populates exactly one slot. -/
theorem pushEntry_emptyDay (t : MealTime) (entry : List NutrientItem) :
    pushEntry emptyDay t entry = slotOnly t [entry] := by
  cases t <;> rfl

/-- After `n + 1` appends of the same entry to one slot of the empty
ledger, the date maps to a one-slot day holding `n + 1` copies. -/
theorem appendN_lookup (dateKey : String) (t : MealTime) (entry : List NutrientItem) :
    ∀ n : ℕ, (appendN (n + 1) emptyLedger dateKey t entry) dateKey
      = some (slotOnly t (List.replicate (n + 1) entry)) := by
  intro n
  induction n with
  | zero =>
    show (appendRecord (appendN 0 emptyLedger dateKey t entry) dateKey t entry) dateKey = _
    simp [appendN, appendRecord, emptyLedger, pushEntry_emptyDay]
  | succ m ih =>
    have step : (appendN (m + 1 + 1) emptyLedger dateKey t entry) dateKey
        = some (pushEntry (slotOnly t (List.replicate (m + 1) entry)) t entry) := by
      show (appendRecord (appendN (m + 1) emptyLedger dateKey t entry) dateKey t entry) dateKey = _
      simp [appendRecord, ih]
    rw [step, pushEntry_slotOnly, ← List.replicate_succ']

/-- Flattening a one-slot day flattens just that slot. -/
theorem flattenDay_slotOnly (t : MealTime) (l : List (List NutrientItem)) :
    flattenDay (slotOnly t l) = l.flatten := by
  cases t <;> simp [flattenDay, slotOnly]

/-- Summing a parsed field over `n` copies of an entry multiplies the
entry's sum by `n`. -/
theorem sum_map_flatten_replicate (f : NutrientItem → ℚ) (entry : List NutrientItem) :
    ∀ n : ℕ, (((List.replicate n entry).flatten).map f).sum = n * ((entry.map f).sum) := by
  intro n
  induction n with
  | zero => simp
  | succ m ih =>
    rw [List.replicate_succ]
    simp only [List.flatten_cons, List.map_append, List.sum_append, ih]
    push_cast
    ring

/-- Closed form of the repeated-append total: each of the four
accumulators is the rounding of `n` times the entry's raw sum. -/
theorem getTotalForDate_appendN (dateKey : String) (t : MealTime)
    (entry : List NutrientItem) (n : ℕ) :
    getTotalForDate (appendN n emptyLedger dateKey t entry) dateKey
      = roundTotals ⟨n * (rawTotals entry).kcal, n * (rawTotals entry).protein,
                     n * (rawTotals entry).fat, n * (rawTotals entry).carbs⟩ := by
  cases n with
  | zero =>
    simp [appendN, getTotalForDate, emptyLedger, roundTotals, roundTo1_zero]
  | succ m =>
    have h := appendN_lookup dateKey t entry m
    simp only [getTotalForDate, h, flattenDay_slotOnly, rawTotals, roundTotals]
    rw [sum_map_flatten_replicate, sum_map_flatten_replicate, sum_map_flatten_replicate,
      sum_map_flatten_replicate]

/-- Totals of a day after a push: the pushed entry's raw sums add to the
day's raw sums, componentwise. -/
theorem rawTotals_flattenDay_pushEntry (d : DayRecord) (t : MealTime)
    (entry : List NutrientItem) :
    rawTotals (flattenDay (pushEntry d t entry)) =
      ⟨(rawTotals (flattenDay d)).kcal + (rawTotals entry).kcal,
       (rawTotals (flattenDay d)).protein + (rawTotals entry).protein,
       (rawTotals (flattenDay d)).fat + (rawTotals entry).fat,
       (rawTotals (flattenDay d)).carbs + (rawTotals entry).carbs⟩ := by
  cases t <;>
    (simp only [pushEntry, flattenDay, rawTotals, List.append_assoc, List.flatten_append,
       List.flatten_cons, List.flatten_nil, List.map_append, List.sum_append, List.append_nil,
       Totals.mk.injEq]
     refine ⟨by ring, by ring, by ring, by ring⟩)

/-- C2: the ledger's only write operation is append: for every date and
slot, append creates the date's record with three empty slot sequences
if the date is absent (the `getD emptyDay` base), then adds the entry as
one new element at the end of that slot's sequence; it never overwrites,
merges with, mutates, or removes any previously appended entry (the old
slot sequence is an unchanged initial segment of the new one), and
leaves every other date and every other slot unchanged. -/
theorem C2_append_only :
    ∀ (records : DailyRecords) (dateKey : String) (t : MealTime)
      (entry : List NutrientItem),
    (appendRecord records dateKey t entry) dateKey
        = some (pushEntry ((records dateKey).getD emptyDay) t entry) ∧
    slotEntries (pushEntry ((records dateKey).getD emptyDay) t entry) t
        = slotEntries ((records dateKey).getD emptyDay) t ++ [entry] ∧
    (∀ s : MealTime, s ≠ t →
       slotEntries (pushEntry ((records dateKey).getD emptyDay) t entry) s
         = slotEntries ((records dateKey).getD emptyDay) s) ∧
    (∀ d : String, d ≠ dateKey → (appendRecord records dateKey t entry) d = records d) := by
  intro records dateKey t entry
  refine ⟨?_, ?_, ?_, ?_⟩
  · simp [appendRecord]
  · cases t <;> simp [pushEntry, slotEntries]
  · intro s hs
    cases t <;> cases s <;> simp_all [pushEntry, slotEntries]
  · intro d hd
    simp [appendRecord, hd]

/-- Witness for C2 at a concrete ledger, date, slot and entry: a foreign
date is untouched by the append. -/
theorem C2_witness :
    (appendRecord emptyLedger "2024-01-01" MealTime.morning []) "2024-01-02"
      = emptyLedger "2024-01-02" :=
  (C2_append_only emptyLedger "2024-01-01" MealTime.morning []).2.2.2 "2024-01-02"
    (by with_unfolding_all decide)

/-- C4 (amended): the division base is the raw kcal total whenever that
total is nonzero - including when it is negative - and is 1 exactly when
the total is 0, so the base is never zero and the scale factor
`targetBudget / base` is a division by a nonzero rational for every item
list (in this exact-rational model no infinity or NaN can arise). -/
theorem C4_scaleBase_amended :
    ∀ arr : List NutrientItem,
    scaleBaseOf arr ≠ 0 ∧
    ((rawTotals arr).kcal ≠ 0 → scaleBaseOf arr = (rawTotals arr).kcal) ∧
    ((rawTotals arr).kcal = 0 → scaleBaseOf arr = 1) := by
  intro arr
  unfold scaleBaseOf
  by_cases h : (rawTotals arr).kcal = 0
  · rw [if_pos h]
    exact ⟨one_ne_zero, fun hk => absurd h hk, fun _ => rfl⟩
  · rw [if_neg h]
    exact ⟨h, fun _ => rfl, fun h0 => absurd h0 h⟩

/-- Witness for C4 at the empty item list: its raw kcal sum is 0, so the
base is 1. -/
theorem C4_witness : scaleBaseOf [] = 1 :=
  (C4_scaleBase_amended []).2.2 (by with_unfolding_all decide)

/-- Counterexample to C4 as stated: an item list whose extraction sums
to -5 kcal (the parser keeps the minus sign) has a raw kcal total that
is not greater than zero, yet the base is -5, not the claimed 1 -
`kcalSum || 1` tests falsiness, not positivity. -/
theorem C4_counterexample :
    (rawTotals [{ name := "x", calories := some "-5kcal" }]).kcal = -5 ∧
    ¬ (0 < (rawTotals [{ name := "x", calories := some "-5kcal" }]).kcal) ∧
    scaleBaseOf [{ name := "x", calories := some "-5kcal" }] = -5 ∧
    scaleBaseOf [{ name := "x", calories := some "-5kcal" }] ≠ 1 := by
  with_unfolding_all decide

/-- C6: for every date with no appended entries, `getTotalForDate`
returns all-zero totals rather than an error; and the result is a pure
read over the current ledger state that reflects every prior append for
the date: after one more append the totals are the rounding of the
previous flattened raw sums plus the new entry's raw sums, slot by slot
and item by item. -/
theorem C6_totalsForDate :
    ∀ (records : DailyRecords) (date : String),
    (records date = none → getTotalForDate records date = ⟨0, 0, 0, 0⟩) ∧
    (∀ (t : MealTime) (entry : List NutrientItem),
       getTotalForDate (appendRecord records date t entry) date =
         roundTotals
           ⟨(rawTotals (flattenDay ((records date).getD emptyDay))).kcal
              + (rawTotals entry).kcal,
            (rawTotals (flattenDay ((records date).getD emptyDay))).protein
              + (rawTotals entry).protein,
            (rawTotals (flattenDay ((records date).getD emptyDay))).fat
              + (rawTotals entry).fat,
            (rawTotals (flattenDay ((records date).getD emptyDay))).carbs
              + (rawTotals entry).carbs⟩) := by
  intro records date
  constructor
  · intro h
    simp [getTotalForDate, h]
  · intro t entry
    have hlook : (appendRecord records date t entry) date
        = some (pushEntry ((records date).getD emptyDay) t entry) := by
      simp [appendRecord]
    simp [getTotalForDate, hlook, rawTotals_flattenDay_pushEntry]

/-- Witness for C6 at the empty ledger: a never-appended date yields
all-zero totals. -/
theorem C6_witness : getTotalForDate emptyLedger "2024-01-01" = ⟨0, 0, 0, 0⟩ :=
  (C6_totalsForDate emptyLedger "2024-01-01").1 rfl

/-- C7: for every goal, split and slot the budget is the slot's
percentage divided by 100 times the goal - with no clamping and no
renormalization; concretely, goal 1200 with morning share 30 gives 360,
and a split summing to 90 still gives 300 for goal 1000. -/
theorem C7_slotBudget :
    (∀ (g : ℚ) (split : CalorieSplit),
       slotBudget g split MealTime.morning = split.morning / 100 * g ∧
       slotBudget g split MealTime.lunch = split.lunch / 100 * g ∧
       slotBudget g split MealTime.dinner = split.dinner / 100 * g) ∧
    slotBudget 1200 ⟨30, 40, 30⟩ MealTime.morning = 360 ∧
    slotBudget 1000 ⟨30, 30, 30⟩ MealTime.morning = 300 := by
  refine ⟨fun g split => ⟨rfl, rfl, rfl⟩, ?_, ?_⟩ <;> with_unfolding_all decide

/-- C9 (amended): the proxy rejects with 405 any method other than POST
and OPTIONS; an OPTIONS preflight is answered 200 (before the method
check); a POST without a prompt - absent or empty, both falsy - gets
400; and a POST with a prompt but a missing (or empty) server credential
gets 500. -/
theorem C9_chatHandler_amended :
    ∀ (m : String) (p k : Option String) (u : ℕ),
    (m ≠ "POST" → m ≠ "OPTIONS" → chatHandler m p k u = 405) ∧
    chatHandler "OPTIONS" p k u = 200 ∧
    chatHandler "POST" none k u = 400 ∧
    chatHandler "POST" (some "") k u = 400 ∧
    (∀ s : String, s ≠ "" →
       chatHandler "POST" (some s) none u = 500 ∧
       chatHandler "POST" (some s) (some "") u = 500) := by
  intro m p k u
  refine ⟨?_, ?_, ?_, ?_, ?_⟩
  · intro h1 h2
    simp [chatHandler, h1, h2]
  · simp [chatHandler]
  · simp [chatHandler]
  · simp [chatHandler]
  · intro s hs
    constructor <;> simp [chatHandler, hs]

/-- Witness for C9 at a concrete non-POST, non-OPTIONS request: GET is
rejected with 405. -/
theorem C9_witness : chatHandler "GET" none none 0 = 405 :=
  (C9_chatHandler_amended "GET" none none 0).1 (by with_unfolding_all decide)
    (by with_unfolding_all decide)

/-- Counterexample to C9 as stated: OPTIONS is not POST, yet the proxy
answers it with 200 (CORS preflight), not with the claimed 405. -/
theorem C9_counterexample :
    chatHandler "OPTIONS" none none 200 = 200 ∧ (200 : ℕ) ≠ 405 := by
  with_unfolding_all decide

/-- C1 (amended): for every item list, goal, split and slot (the target
budget being `B = slotBudget`): the output kcal total - computed by
scaling the raw kcal sum, not by re-aggregating the scaled item strings -
is the one-decimal rounding of `B`, hence within 0.1 kcal of `B`,
whenever the raw kcal sum is nonzero; it is 0 whenever `B` is 0; and
when the raw kcal sum is zero the kcal total is 0, but the protein, fat
and carb totals are the roundings of their raw sums times `B` (the
guard makes the factor `B / 1 = B`), so they are not zero in general. -/
theorem C1_scaleMeal_totals_amended :
    ∀ (arr : List NutrientItem) (g : ℚ) (split : CalorieSplit) (t : MealTime),
    ((rawTotals arr).kcal ≠ 0 →
       (scaleMealArr arr g split t).2.kcal = roundTo1 (slotBudget g split t) ∧
       |(scaleMealArr arr g split t).2.kcal - slotBudget g split t| ≤ 1 / 10) ∧
    (slotBudget g split t = 0 → (scaleMealArr arr g split t).2.kcal = 0) ∧
    ((rawTotals arr).kcal = 0 →
       (scaleMealArr arr g split t).2.kcal = 0 ∧
       (scaleMealArr arr g split t).2.protein
         = roundTo1 ((rawTotals arr).protein * slotBudget g split t) ∧
       (scaleMealArr arr g split t).2.fat
         = roundTo1 ((rawTotals arr).fat * slotBudget g split t) ∧
       (scaleMealArr arr g split t).2.carbs
         = roundTo1 ((rawTotals arr).carbs * slotBudget g split t)) := by
  intro arr g split t
  have hkcal : (scaleMealArr arr g split t).2.kcal
      = roundTo1 ((rawTotals arr).kcal * scaleFactorOf arr g split t) := rfl
  have hprot : (scaleMealArr arr g split t).2.protein
      = roundTo1 ((rawTotals arr).protein * scaleFactorOf arr g split t) := rfl
  have hfat : (scaleMealArr arr g split t).2.fat
      = roundTo1 ((rawTotals arr).fat * scaleFactorOf arr g split t) := rfl
  have hcarb : (scaleMealArr arr g split t).2.carbs
      = roundTo1 ((rawTotals arr).carbs * scaleFactorOf arr g split t) := rfl
  refine ⟨?_, ?_, ?_⟩
  · intro h
    have hbase : scaleBaseOf arr = (rawTotals arr).kcal := by
      unfold scaleBaseOf
      rw [if_neg h]
    have hfac : (rawTotals arr).kcal * scaleFactorOf arr g split t = slotBudget g split t := by
      unfold scaleFactorOf
      rw [hbase, mul_comm, div_mul_cancel₀ _ h]
    refine ⟨by rw [hkcal, hfac], ?_⟩
    rw [hkcal, hfac]
    exact le_trans (abs_roundTo1_sub_le _) (by norm_num)
  · intro h0
    have hz : (rawTotals arr).kcal * scaleFactorOf arr g split t = 0 := by
      unfold scaleFactorOf
      rw [h0, zero_div, mul_zero]
    rw [hkcal, hz, roundTo1_zero]
  · intro hz
    have hbase : scaleBaseOf arr = 1 := by
      unfold scaleBaseOf
      rw [if_pos hz]
    have hfac : scaleFactorOf arr g split t = slotBudget g split t := by
      unfold scaleFactorOf
      rw [hbase, div_one]
    refine ⟨?_, ?_, ?_, ?_⟩
    · rw [hkcal, hz, zero_mul, roundTo1_zero]
    · rw [hprot, hfac]
    · rw [hfat, hfac]
    · rw [hcarb, hfac]

/-- Witness for C1 at a concrete one-item list with a 200 kcal raw sum
and a 400 kcal budget: the output kcal total is the rounding of the
budget. -/
theorem C1_witness :
    (scaleMealArr [⟨"chicken breast", none, none, some "200kcal", some "40g",
        some "5g", some "0g"⟩] 400 ⟨100, 0, 0⟩ MealTime.morning).2.kcal
      = roundTo1 (slotBudget 400 ⟨100, 0, 0⟩ MealTime.morning) :=
  ((C1_scaleMeal_totals_amended
      [⟨"chicken breast", none, none, some "200kcal", some "40g", some "5g", some "0g"⟩]
      400 ⟨100, 0, 0⟩ MealTime.morning).1 (by with_unfolding_all decide)).1

/-- Counterexample to C1 as stated: an item with protein "40g" and no
calories has raw kcal sum 0, yet with budget 10 the scaled protein total
is 400, not the claimed 0 - the guard sets the factor to `B`, it does
not zero the outputs. -/
theorem C1_counterexample :
    (rawTotals [{ name := "p", protein := some "40g" }]).kcal = 0 ∧
    slotBudget 10 ⟨100, 0, 0⟩ MealTime.morning = 10 ∧
    (scaleMealArr [{ name := "p", protein := some "40g" }] 10 ⟨100, 0, 0⟩
        MealTime.morning).2.protein = 400 ∧
    (400 : ℚ) ≠ 0 := by
  with_unfolding_all decide

/-- C3 (amended): `numFromUnitString` never throws (it is a total
function), returns 0 for absent input and for input with no digit at
all, and on any string it deletes every character that is not a digit,
a dot or a minus sign - concatenating what remains, so separate digit
runs merge - and then reads the longest decimal prefix of the result,
with 0 for a prefix with no digits (NaN). -/
theorem C3_parser_amended :
    numFromUnitString none = 0 ∧
    (∀ s : String, (∀ c ∈ s.data, c.isDigit = false) → numFromUnitString (some s) = 0) ∧
    (∀ s : String, numFromUnitString (some s) =
       match jsParseFloat (s.data.filter keepNumChar) with
       | none => 0
       | some q => q) := by
  refine ⟨rfl, ?_, ?_⟩
  · intro s hs
    simp only [numFromUnitString]
    by_cases he : s = ""
    · rw [if_pos he]
    · rw [if_neg he]
      have hf : ∀ c ∈ s.data.filter keepNumChar, c.isDigit = false := by
        intro c hc
        exact hs c (List.mem_of_mem_filter hc)
      rw [jsParseFloat_of_no_digit hf]
  · intro s
    simp only [numFromUnitString]
    by_cases he : s = ""
    · subst he
      rw [if_pos rfl]
      with_unfolding_all decide
    · rw [if_neg he]

/-- Witness for C3 at a concrete digit-free string: it parses to 0. -/
theorem C3_witness : numFromUnitString (some "abc") = 0 :=
  (C3_parser_amended.2.1) "abc" (by with_unfolding_all decide)

/-- Counterexample to C3 as stated: on "1g2" the code merges the two
digit runs and returns 12, while a parser that reads only the first
contiguous digit run returns 1. -/
theorem C3_counterexample :
    numFromUnitString (some "1g2") = 12 ∧
    parseMagnitudeSpec (some "1g2") = 1 ∧
    (12 : ℚ) ≠ 1 := by
  with_unfolding_all decide

/-- C5 (amended): appending the same entry `n` times to the same
(date, slot) of the empty ledger yields totals that are the one-decimal
rounding of `n` times the entry's raw sums; when each of the entry's
four raw sums is an integer multiple of one tenth - as for every
scaler-produced entry, whose strings carry one decimal - this equals
exactly `n` times the total of a single append. -/
theorem C5_append_linearity_amended :
    ∀ (dateKey : String) (t : MealTime) (entry : List NutrientItem) (n : ℕ),
    getTotalForDate (appendN n emptyLedger dateKey t entry) dateKey
      = roundTotals ⟨n * (rawTotals entry).kcal, n * (rawTotals entry).protein,
                     n * (rawTotals entry).fat, n * (rawTotals entry).carbs⟩ ∧
    ((∃ a b c d : ℤ,
        (rawTotals entry).kcal = (a : ℚ) / 10 ∧ (rawTotals entry).protein = (b : ℚ) / 10 ∧
        (rawTotals entry).fat = (c : ℚ) / 10 ∧ (rawTotals entry).carbs = (d : ℚ) / 10) →
      (getTotalForDate (appendN n emptyLedger dateKey t entry) dateKey).kcal
          = n * (getTotalForDate (appendN 1 emptyLedger dateKey t entry) dateKey).kcal ∧
      (getTotalForDate (appendN n emptyLedger dateKey t entry) dateKey).protein
          = n * (getTotalForDate (appendN 1 emptyLedger dateKey t entry) dateKey).protein ∧
      (getTotalForDate (appendN n emptyLedger dateKey t entry) dateKey).fat
          = n * (getTotalForDate (appendN 1 emptyLedger dateKey t entry) dateKey).fat ∧
      (getTotalForDate (appendN n emptyLedger dateKey t entry) dateKey).carbs
          = n * (getTotalForDate (appendN 1 emptyLedger dateKey t entry) dateKey).carbs) := by
  intro dateKey t entry n
  refine ⟨getTotalForDate_appendN dateKey t entry n, ?_⟩
  rintro ⟨a, b, c, d, ha, hb, hc, hd⟩
  rw [getTotalForDate_appendN dateKey t entry n, getTotalForDate_appendN dateKey t entry 1]
  simp only [roundTotals, ha, hb, hc, hd, Nat.cast_one, one_mul]
  rw [roundTo1_nat_mul_tenth, roundTo1_nat_mul_tenth, roundTo1_nat_mul_tenth,
    roundTo1_nat_mul_tenth, roundTo1_tenth, roundTo1_tenth, roundTo1_tenth, roundTo1_tenth]
  exact ⟨rfl, rfl, rfl, rfl⟩

/-- Witness for C5 at a concrete entry with one-decimal raw sums
(200 kcal, 40 g protein) appended three times. -/
theorem C5_witness :
    (getTotalForDate (appendN 3 emptyLedger "2024-01-01" MealTime.morning
        [{ name := "c", calories := some "200kcal", protein := some "40g" }]) "2024-01-01").kcal
      = ((3 : ℕ) : ℚ) * (getTotalForDate (appendN 1 emptyLedger "2024-01-01" MealTime.morning
        [{ name := "c", calories := some "200kcal", protein := some "40g" }]) "2024-01-01").kcal :=
  ((C5_append_linearity_amended "2024-01-01" MealTime.morning
      [{ name := "c", calories := some "200kcal", protein := some "40g" }] 3).2
    ⟨2000, 400, 0, 0, by with_unfolding_all decide, by with_unfolding_all decide,
      by with_unfolding_all decide, by with_unfolding_all decide⟩).1

/-- Counterexample to C5 as stated: an entry of 0.25 kcal appended twice
totals round(0.5) = 0.5, while twice the single-append total is
2 * round(0.25) = 0.6 - the per-query rounding breaks exact
linearity. -/
theorem C5_counterexample :
    (getTotalForDate (appendN 2 emptyLedger "2024-01-01" MealTime.morning
        [{ name := "x", calories := some "0.25kcal" }]) "2024-01-01").kcal = 1 / 2 ∧
    (2 : ℚ) * (getTotalForDate (appendN 1 emptyLedger "2024-01-01" MealTime.morning
        [{ name := "x", calories := some "0.25kcal" }]) "2024-01-01").kcal = 3 / 5 ∧
    (1 : ℚ) / 2 ≠ 3 / 5 := by
  with_unfolding_all decide

/-- C8: scaling maps each input item, position by position, to an item
whose four magnitudes are the parses of the originals times the scale
factor, re-formatted to one decimal with the "kcal" / "g" suffix, and
whose `name`, `quantity` and `weight` are carried over unchanged; on the
spec's concrete scenario (one 200 kcal item, budget 400) the scaled
strings are "400.0kcal", "80.0g", "10.0g", "0.0g". -/
theorem C8_scaleItems :
    (∀ (arr : List NutrientItem) (g : ℚ) (split : CalorieSplit) (t : MealTime) (i : ℕ),
      (scaleMealArr arr g split t).1.length = arr.length ∧
      (scaleMealArr arr g split t).1[i]? = (arr[i]?).map (fun item =>
        { item with
          calories := some (toFixedSafe
            (numFromUnitString item.calories * scaleFactorOf arr g split t) ++ "kcal"),
          protein := some (toFixedSafe
            (numFromUnitString item.protein * scaleFactorOf arr g split t) ++ "g"),
          fat := some (toFixedSafe
            (numFromUnitString item.fat * scaleFactorOf arr g split t) ++ "g"),
          carbohydrate := some (toFixedSafe
            (numFromUnitString item.carbohydrate * scaleFactorOf arr g split t) ++ "g") }) ∧
      ((scaleMealArr arr g split t).1[i]?).map NutrientItem.name
        = (arr[i]?).map NutrientItem.name ∧
      ((scaleMealArr arr g split t).1[i]?).map NutrientItem.quantity
        = (arr[i]?).map NutrientItem.quantity ∧
      ((scaleMealArr arr g split t).1[i]?).map NutrientItem.weight
        = (arr[i]?).map NutrientItem.weight) ∧
    (scaleMealArr [⟨"chicken breast", none, none, some "200kcal", some "40g", some "5g",
        some "0g"⟩] 400 ⟨100, 0, 0⟩ MealTime.morning).1
      = [⟨"chicken breast", none, none, some "400.0kcal", some "80.0g", some "10.0g",
        some "0.0g"⟩] := by
  constructor
  · intro arr g split t i
    have hmap : (scaleMealArr arr g split t).1
        = arr.map (scaleItem (scaleFactorOf arr g split t)) := rfl
    refine ⟨by rw [hmap, List.length_map], ?_, ?_, ?_, ?_⟩ <;>
      rw [hmap, List.getElem?_map] <;> cases arr[i]? <;> simp [scaleItem]
  · with_unfolding_all decide

/-- C10 (amended): a successful parse that is a single JSON object never
scales and never appends to the ledger: an object carrying an
array-valued `ingredients` member is displayed as that array with the
unrounded sum of its parsed calories as the displayed total (this branch
is tested first), any other object is displayed as a one-item list with
its own parsed calories as the total; other non-array JSON changes
nothing; only an array-shaped result is scaled and appended. -/
theorem C10_dispatch_amended :
    ∀ (g : ℚ) (split : CalorieSplit) (t : MealTime) (dateKey : String)
      (st : UIState) (records : DailyRecords),
    (∀ obj : NutrientItem,
       (callGPTUpdate (ParsedMessage.objectPlain obj) g split t dateKey st records).1.ingredients
         = [obj] ∧
       (callGPTUpdate (ParsedMessage.objectPlain obj) g split t dateKey st records).1.totalCalories
         = numFromUnitString obj.calories ∧
       (callGPTUpdate (ParsedMessage.objectPlain obj) g split t dateKey st records).2
         = records) ∧
    (∀ items : List NutrientItem,
       (callGPTUpdate (ParsedMessage.objectWithIngredients items) g split t dateKey st
           records).1.ingredients = items ∧
       (callGPTUpdate (ParsedMessage.objectWithIngredients items) g split t dateKey st
           records).1.totalCalories = (items.map (fun i => numFromUnitString i.calories)).sum ∧
       (callGPTUpdate (ParsedMessage.objectWithIngredients items) g split t dateKey st
           records).2 = records) ∧
    callGPTUpdate ParsedMessage.otherJson g split t dateKey st records = (st, records) ∧
    (∀ arr : List NutrientItem,
       (callGPTUpdate (ParsedMessage.jsonArray arr) g split t dateKey st records).2
         = appendRecord records dateKey t (scaleMealArr arr g split t).1) := by
  intro g split t dateKey st records
  exact ⟨fun obj => ⟨rfl, rfl, rfl⟩, fun items => ⟨rfl, rfl, rfl⟩, rfl, fun arr => rfl⟩

/-- Counterexample to C10 as stated: an object whose `ingredients`
member holds two items is displayed as a two-item list with total 150 -
not as the claimed one-item list with the object's own parsed
calories. -/
theorem C10_counterexample :
    (callGPTUpdate (ParsedMessage.objectWithIngredients
        [{ name := "a", calories := some "100kcal" },
         { name := "b", calories := some "50kcal" }])
        1000 ⟨30, 40, 30⟩ MealTime.morning "2024-01-01"
        ⟨[], 0, 0, 0, 0⟩ emptyLedger).1.ingredients.length = 2 ∧
    (2 : ℕ) ≠ 1 ∧
    (callGPTUpdate (ParsedMessage.objectWithIngredients
        [{ name := "a", calories := some "100kcal" },
         { name := "b", calories := some "50kcal" }])
        1000 ⟨30, 40, 30⟩ MealTime.morning "2024-01-01"
        ⟨[], 0, 0, 0, 0⟩ emptyLedger).1.totalCalories = 150 := by
  with_unfolding_all decide

end MyApp
